import Mathlib

/-!
Verification of the MySSH terminal-pane session controller.

The definitions below are a shallow embedding of the client-side session
controller of the terminal pane component: output-line buffer, prompt state,
command history, command dispatch (interactive, directory-change, normal and
failure handling), tab completion, prompt-info bootstrap, and the
connect/disconnect lifecycle hooks.  JavaScript strings are modelled as Lean
strings, JS `trim` as stripping leading and trailing whitespace characters,
and optional string-valued result fields (`interactiveMessage`, `newDir`,
`completedInput`) as `Option String`, where the source tests them with JS
truthiness (absent and empty string are both falsy).
-/

namespace MySsh

/-- JS whitespace predicate used by `trim`. -/
def isWS (c : Char) : Bool := c.isWhitespace

/-- Character-list form of JS `String.prototype.trim`: strip leading and
trailing whitespace. -/
def trimChars (l : List Char) : List Char :=
  List.rdropWhile isWS (List.dropWhile isWS l)

/-- JS `String.prototype.trim`. -/
def jsTrim (s : String) : String := String.mk (trimChars s.data)

/-- JS truthiness of an optional string field: absent and `""` are falsy. -/
def strTruthy : Option String → Bool
  | none => false
  | some s => s != ""

/-- JS `String.prototype.startsWith`, at the character-list level. -/
def jsStartsWith (s pre : String) : Bool := pre.data.isPrefixOf s.data

/-- Drop the first `n` characters of a string (used to model the
first-occurrence `replace` of a verified prefix). -/
def jsDropChars (s : String) (n : Nat) : String := String.mk (s.data.drop n)

/-- Split a character list on a separator character, keeping empty segments,
with JS `split` semantics (the empty list yields one empty segment). -/
def splitOnChar (c : Char) : List Char → List (List Char)
  | [] => [[]]
  | x :: xs =>
    let r := splitOnChar c xs
    if x = c then [] :: r
    else
      match r with
      | [] => [[x]]
      | y :: ys => (x :: y) :: ys

/-- JS `String.prototype.split` with separator `"\n"`. -/
def jsSplitNewline (s : String) : List String :=
  (splitOnChar '\n' s.data).map String.mk

/-- Approximation of JS `parseInt` in base 10 on an already-trimmed string:
optional sign followed by the longest digit prefix; `none` models `NaN`. -/
def jsParseInt (s : String) : Option Int :=
  let (sign, rest) :=
    match s.data with
    | '-' :: t => ((-1 : Int), t)
    | '+' :: t => ((1 : Int), t)
    | t => ((1 : Int), t)
  let digits := rest.takeWhile Char.isDigit
  if digits = [] then none
  else some (sign * digits.foldl (fun a c => a * 10 + ((c.toNat - 48 : Nat) : Int)) 0)

/-- Kind of a rendered terminal line (the `type` field of the line records). -/
inductive LineKind
  | input
  | output
  | error
deriving DecidableEq

/-- One entry of the `outputLines` buffer. -/
structure OutputLine where
  type : LineKind
  content : String
  prompt : String
deriving DecidableEq

/-- The `promptInfo` record: identity facts plus the displayed directory. -/
structure PromptInfo where
  username : String
  hostname : String
  isRoot : Bool
  currentDir : String
deriving DecidableEq

/-- The relevant fields of the `server` prop (session context). -/
structure Server where
  id : String
  name : String
  host : String
  port : Nat
  username : String
deriving DecidableEq

/-- Structured result of `executeSshCommand` (field names follow the
snake-case payload the caller reads, e.g. `result.exit_code`). -/
structure ExecResult where
  output : String
  exit_code : Int
  outputLines : List String
  isInteractive : Bool
  interactiveMessage : Option String
  newDir : Option String
deriving DecidableEq

/-- Structured result of `completeCommand`.  The `matchList` field embeds the
`matches` array of the source (`matches` is a reserved token in Lean). -/
structure CompletionResult where
  completedInput : Option String
  matchList : List String
  shouldShowMatches : Bool
deriving DecidableEq

/-- A JS error value as discriminated by the catch block of
`executeCommand`: a native `Error` object, a plain string, or any other
value with an optional `message` property. -/
inductive ErrVal
  | errObj (message : String)
  | strVal (s : String)
  | other (message : Option String)
deriving DecidableEq

/-- The reactive state of one terminal pane. -/
structure State where
  outputLines : List OutputLine
  currentInput : String
  currentPrompt : String
  commandHistory : List String
  historyIndex : Int
  promptInfo : PromptInfo
  currentWorkingDir : String
deriving DecidableEq

/-- A recording event emitted to the `record` collaborator. -/
structure RecordEvent where
  type : String
  content : String
deriving DecidableEq

/-- Parameters of one `executeSshCommand` dispatch. -/
structure DispatchCall where
  serverId : String
  command : String
  currentDir : String
deriving DecidableEq

/-- Result of one controller step: new state, recording events emitted, and
execution-service calls issued. -/
structure StepOut where
  state : State
  events : List RecordEvent
  calls : List DispatchCall

/-- The rendered prompt string, from `updatePrompt`. -/
def renderPrompt (pi : PromptInfo) : String :=
  pi.username ++ "@" ++ pi.hostname ++ ":" ++ pi.currentDir ++
    (if pi.isRoot then "#" else "$") ++ " "

/-- Directory display normalisation, from the body of
`updateCurrentDirFromPath`: blank maps to `~`; root keeps every path
unchanged; a non-root user sees `/home/{username}` as `~` and paths under it
with the `/home/{username}` prefix replaced by `~`. -/
def normalizeDir (fullPath username : String) (isRoot : Bool) : String :=
  let d := if jsTrim fullPath = "" then "~" else jsTrim fullPath
  if isRoot then d
  else if d = "/home/" ++ username then "~"
  else if jsStartsWith d ("/home/" ++ username ++ "/") then
    "~" ++ jsDropChars d ("/home/" ++ username).length
  else d

/-- The `updateCurrentDirFromPath` mutation: sets the displayed directory to
the normalised form, the tracked working directory to the trimmed full path,
and re-renders the prompt. -/
def updateCurrentDirFromPath (st : State) (fullPath : String) : State :=
  let pi := { st.promptInfo with
    currentDir := normalizeDir fullPath st.promptInfo.username st.promptInfo.isRoot }
  { st with promptInfo := pi
            currentWorkingDir := jsTrim fullPath
            currentPrompt := renderPrompt pi }

/-- The `currentDir` value sent with a dispatch: `currentWorkingDir || "~"`. -/
def dispatchDir (st : State) : String :=
  if st.currentWorkingDir = "" then "~" else st.currentWorkingDir

/-- The display name of a session: `name` if truthy, else `host:port`. -/
def serverDisplayName (sv : Server) : String :=
  if sv.name = "" then sv.host ++ ":" ++ toString sv.port else sv.name

/-- Generic fallback message of the dispatch catch block. -/
def genericExecFailMsg : String := "执行命令失败"

/-- Message-resolution fallback chain of the dispatch catch block. -/
def resolveErrMsg : ErrVal → String
  | .errObj m => if m = "" then genericExecFailMsg else m
  | .strVal s => s
  | .other (some m) => if m = "" then genericExecFailMsg else m
  | .other none => genericExecFailMsg

/-- Warning marker tested by the interactive-command branch. -/
def warnMarker : String := "警告:"

/-- Line rendering for the interactive-command branch. -/
def interactiveLine (l : String) : OutputLine :=
  ⟨if jsStartsWith l warnMarker then .error else .output, l, ""⟩

/-- Line rendering for the normal-result branch, keyed on the exit code. -/
def normalLine (code : Int) (l : String) : OutputLine :=
  ⟨if code = 0 then .output else .error, l, ""⟩

/-- Line rendering for the failure branch: non-empty segments carry the
session display-name prefix, empty segments become blank lines. -/
def errorLine (sv : Server) (l : String) : OutputLine :=
  ⟨.error, if l = "" then "" else serverDisplayName sv ++ ": " ++ l, ""⟩

/-- The catch block of `executeCommand`: resolve a message, split it on
newlines and append one error line per segment. -/
def handleExecFailure (st : State) (sv : Server) (e : ErrVal) : State :=
  { st with outputLines :=
      st.outputLines ++ (jsSplitNewline (resolveErrMsg e)).map (errorLine sv) }

/-- The `executeCommand` dispatch: one call to the execution service whose
outcome is either a thrown error or a structured result, branched on the
interactive signal, then the directory-change signal, then the normal path. -/
def executeCommand (st : State) (isRecording : Bool) (sv : Server)
    (command : String) (outcome : Except ErrVal ExecResult) : StepOut :=
  let call : DispatchCall := ⟨sv.id, command, dispatchDir st⟩
  match outcome with
  | .error e => ⟨handleExecFailure st sv e, [], [call]⟩
  | .ok r =>
    if r.isInteractive && strTruthy r.interactiveMessage then
      ⟨{ st with outputLines := st.outputLines ++ r.outputLines.map interactiveLine },
       [], [call]⟩
    else if strTruthy r.newDir then
      let st1 := updateCurrentDirFromPath st (r.newDir.getD "")
      ⟨{ st1 with outputLines := st1.outputLines ++ [⟨.output, "", ""⟩] }, [], [call]⟩
    else
      ⟨{ st with outputLines := st.outputLines ++ r.outputLines.map (normalLine r.exit_code) },
       if isRecording then [⟨"output", r.output⟩] else [], [call]⟩

/-- The `handleCommand` submission handler: blank input only echoes an empty
input line; otherwise the command is recorded, appended to history (cursor to
the new length), echoed, the edit buffer cleared, and the command dispatched. -/
def handleCommand (st : State) (isRecording : Bool) (sv : Server)
    (outcome : Except ErrVal ExecResult) : StepOut :=
  let command := jsTrim st.currentInput
  if command = "" then
    ⟨{ st with outputLines := st.outputLines ++ [⟨.input, "", st.currentPrompt⟩]
               currentInput := "" }, [], []⟩
  else
    let inEvents : List RecordEvent := if isRecording then [⟨"input", command⟩] else []
    let st1 := { st with
      commandHistory := st.commandHistory ++ [command]
      historyIndex := (st.commandHistory.length : Int) + 1
      outputLines := st.outputLines ++ [⟨.input, command, st.currentPrompt⟩]
      currentInput := "" }
    let out := executeCommand st1 isRecording sv command outcome
    ⟨out.state, inEvents ++ out.events, out.calls⟩

/-- The `handleHistoryUp` handler. -/
def handleHistoryUp (st : State) : State :=
  if st.commandHistory.length = 0 then st
  else if st.historyIndex > 0 then
    let i := st.historyIndex - 1
    { st with historyIndex := i, currentInput := st.commandHistory.getD i.toNat "" }
  else st

/-- The `handleHistoryDown` handler. -/
def handleHistoryDown (st : State) : State :=
  if st.historyIndex < (st.commandHistory.length : Int) - 1 then
    let i := st.historyIndex + 1
    { st with historyIndex := i, currentInput := st.commandHistory.getD i.toNat "" }
  else
    { st with historyIndex := (st.commandHistory.length : Int), currentInput := "" }

/-- The `handleTabComplete` handler.  The completion service is passed as a
function from input and current directory to an outcome; the returned list
records the calls issued (empty trimmed input issues none). -/
def handleTabComplete (st : State)
    (svc : String → String → Except ErrVal CompletionResult) :
    State × List (String × String) :=
  let input := jsTrim st.currentInput
  if input = "" then (st, [])
  else
    let dir := dispatchDir st
    match svc input dir with
    | .error _ => (st, [(input, dir)])
    | .ok r =>
      if strTruthy r.completedInput then
        ({ st with currentInput := r.completedInput.getD "" }, [(input, dir)])
      else if r.shouldShowMatches && !r.matchList.isEmpty then
        ({ st with outputLines :=
            st.outputLines ++ [⟨.output, String.intercalate "  " r.matchList, ""⟩] },
         [(input, dir)])
      else (st, [(input, dir)])

/-- The `clear` method exposed to the parent. -/
def clearLines (st : State) : State := { st with outputLines := [] }

/-- Default prompt identity, as set on creation and on disconnect. -/
def initPromptInfo : PromptInfo := ⟨"", "", false, "~"⟩

/-- Initial pane state (welcome banner, idle prompt, history cursor `-1`). -/
def initState : State :=
  ⟨[⟨.output, "欢迎使用 MySSH 终端", ""⟩], "", "$ ", [], -1, initPromptInfo, "~"⟩

/-- The disconnect branch of the `connected` watcher. -/
def onDisconnect (st : State) : State :=
  { st with currentPrompt := "$ ", promptInfo := initPromptInfo }

/-- The connected-banner line pushed by the connect branch of the watcher. -/
def pushConnectedLine (st : State) (sv : Server) : State :=
  { st with outputLines :=
      st.outputLines ++ [⟨.output, "已连接到 " ++ sv.host ++ ":" ++ toString sv.port, ""⟩] }

/-- Context-derived defaults used by the catch block of `fetchPromptInfo`. -/
def promptDefaults (sv : Server) : PromptInfo :=
  ⟨if sv.username = "" then "user" else sv.username,
   if sv.host = "" then "localhost" else sv.host,
   false, "~"⟩

/-- The `fetchPromptInfo` bootstrap: four sequential probes (`whoami`,
`hostname`, `id -u`, `pwd`).  A failure of any probe lands in the single
catch block, which resets the whole identity to context defaults and
re-renders the prompt without touching the tracked working directory. -/
def fetchPromptInfo (st : State) (sv : Server)
    (p1 p2 p3 p4 : Except ErrVal String) : State :=
  match p1, p2, p3, p4 with
  | .ok o1, .ok o2, .ok o3, .ok o4 =>
    let username := if jsTrim o1 = "" then (if sv.username = "" then "user" else sv.username) else jsTrim o1
    let hostname := if jsTrim o2 = "" then (if sv.host = "" then "localhost" else sv.host) else jsTrim o2
    let userId : Int :=
      match jsParseInt (jsTrim o3) with
      | none => 1000
      | some n => if n = 0 then 1000 else n
    let isRoot := userId == 0 || username.toLower == "root"
    let fullPath := if jsTrim o4 = "" then "~" else jsTrim o4
    let st1 := { st with promptInfo := ⟨username, hostname, isRoot, "~"⟩ }
    updateCurrentDirFromPath st1 fullPath
  | _, _, _, _ =>
    let pi := promptDefaults sv
    { st with promptInfo := pi, currentPrompt := renderPrompt pi }

/-- The connect branch of the watcher: push the banner, then bootstrap the
prompt information. -/
def onConnect (st : State) (sv : Server) (p1 p2 p3 p4 : Except ErrVal String) : State :=
  fetchPromptInfo (pushConnectedLine st sv) sv p1 p2 p3 p4

/-- Reachable pane states: the initial state closed under user edits of the
input field and every controller step. -/
inductive Reach : State → Prop where
  | init : Reach initState
  | typeInput {s : State} : Reach s → ∀ t, Reach { s with currentInput := t }
  | cmd {s : State} : Reach s → ∀ rec sv out, Reach (handleCommand s rec sv out).state
  | up {s : State} : Reach s → Reach (handleHistoryUp s)
  | down {s : State} : Reach s → Reach (handleHistoryDown s)
  | tab {s : State} : Reach s → ∀ svc, Reach (handleTabComplete s svc).1
  | clearStep {s : State} : Reach s → Reach (clearLines s)
  | disconnect {s : State} : Reach s → Reach (onDisconnect s)
  | connect {s : State} : Reach s → ∀ sv p1 p2 p3 p4, Reach (onConnect s sv p1 p2 p3 p4)

/-! Sample fixtures used by counterexamples and witnesses. -/

/-- Sample session context with a truthy display name. -/
def sv0 : Server := ⟨"srv-1", "prod-1", "example.com", 22, "alice"⟩

/-- Sample session context with an empty display name. -/
def svBob : Server := ⟨"srv-2", "", "host-b", 2222, "bob"⟩

/-- Sample quiet successful execution result. -/
def res0 : ExecResult := ⟨"", 0, [], false, none, none⟩

/-- Sample failing execution result with two output lines. -/
def resFail : ExecResult := ⟨"a\nb", 2, ["a", "b"], false, none, none⟩

/-- Sample directory-change execution result. -/
def resCd : ExecResult := ⟨"/tmp", 0, ["/tmp"], false, none, some "/tmp"⟩

/-- Sample interactive-command execution result. -/
def resInter : ExecResult :=
  ⟨"", 0, ["警告: 此命令需要交互式终端", "请使用完整终端"], true, some "需要交互", none⟩

/-- Sample completion service always returning a completed input and matches. -/
def complSvcW : String → String → Except ErrVal CompletionResult :=
  fun _ _ => .ok ⟨some "lsof", ["ls", "lsof"], true⟩

/-- Sample state whose edit buffer holds a command. -/
def tabState : State := { initState with currentInput := "ls" }

/-- History scenario state: initial state with `ls` typed. -/
def histSampleA : State := { initState with currentInput := "ls" }

/-- History scenario state: after submitting `ls`. -/
def histSampleB : State := (handleCommand histSampleA false sv0 (.ok res0)).state

/-- History scenario state: after navigating up to `ls`. -/
def histSampleC : State := handleHistoryUp histSampleB

/-- History scenario state: after clearing the edit buffer. -/
def histSampleD : State := { histSampleC with currentInput := "" }

/-- History scenario state: after submitting the blank buffer. -/
def histSampleE : State := (handleCommand histSampleD false sv0 (.ok res0)).state

/-- Sample state used for the updateLocation counterexample. -/
def sampleState : State :=
  { initState with promptInfo := ⟨"alice", "h1", false, "~"⟩, currentWorkingDir := "/home/alice" }

/-- Sample state with a tracked working directory, used for the
disconnect and reconnect scenario. -/
def stPre : State := { initState with currentWorkingDir := "/tmp/x" }

/-- The disconnect and successful-reconnect scenario state, with `ls` typed. -/
def stRe : State :=
  { onConnect (onDisconnect stPre) sv0 (.ok "alice") (.ok "h1") (.ok "1000") (.ok "/home/alice")
      with currentInput := "ls" }

/-- History-related invariant of a pane state: cursor bounds, the `-1`
initial value only alongside an empty history, and no blank entries. -/
def histInv (s : State) : Prop :=
  -1 ≤ s.historyIndex ∧ s.historyIndex ≤ (s.commandHistory.length : Int)
  ∧ (s.historyIndex = -1 → s.commandHistory = [])
  ∧ ∀ e ∈ s.commandHistory, jsTrim e ≠ ""

/-! Helper lemmas. -/

/-- Head of a `dropWhile` result never satisfies the predicate. -/
theorem dropWhile_head_false {α : Type} {p : α → Bool} :
    ∀ {l : List α} {a : α} {t : List α}, List.dropWhile p l = a :: t → p a = false := by
  intro l
  induction l with
  | nil => intro a t h; simp [List.dropWhile] at h
  | cons x xs ih =>
    intro a t h
    by_cases hx : p x = true
    · rw [List.dropWhile_cons, if_pos hx] at h
      exact ih h
    · rw [List.dropWhile_cons, if_neg hx] at h
      cases h
      simpa using hx

/-- Trimming leaves no leading whitespace. -/
theorem dropWhile_trimChars (l : List Char) :
    List.dropWhile isWS (trimChars l) = trimChars l := by
  rcases h : trimChars l with _ | ⟨a, t⟩
  · rfl
  · have hpre : (a :: t) <+: List.dropWhile isWS l := by
      rw [← h]
      exact List.rdropWhile_prefix isWS (List.dropWhile isWS l)
    obtain ⟨u, hu⟩ := hpre
    have ha : isWS a = false := dropWhile_head_false hu.symm
    simp [List.dropWhile_cons, ha]

/-- Character-level trim is idempotent. -/
theorem trimChars_idem (l : List Char) : trimChars (trimChars l) = trimChars l := by
  show List.rdropWhile isWS (List.dropWhile isWS (trimChars l)) = trimChars l
  rw [dropWhile_trimChars]
  show List.rdropWhile isWS (List.rdropWhile isWS (List.dropWhile isWS l)) = trimChars l
  rw [List.rdropWhile_idempotent]
  rfl

/-- JS trim is idempotent. -/
theorem jsTrim_idem (s : String) : jsTrim (jsTrim s) = jsTrim s :=
  congrArg String.mk (trimChars_idem s.data)

/-- Character count of `/home/` followed by a username. -/
theorem data_len_home (u : String) : ("/home/" ++ u).data.length = 6 + u.data.length := by
  rw [String.data_append, List.length_append]
  have h : ("/home/" : String).data.length = 6 := rfl
  rw [h]

/-- Character count of `/home/` followed by a username and a slash. -/
theorem data_len_homeSlash (u : String) :
    ("/home/" ++ u ++ "/").data.length = 6 + u.data.length + 1 := by
  rw [String.data_append, List.length_append, data_len_home]
  have h : ("/" : String).data.length = 1 := rfl
  rw [h]

/-! Claim theorems. -/

/-- Claim C3, counterexample: the claim states that `updateLocation` sets the
tracked full directory to `"~"` when the path is blank, but
`updateCurrentDirFromPath` stores the bare trimmed path, which is empty for
the blank input `" "`. -/
theorem updateLocation_blank_counterexample :
    (updateCurrentDirFromPath sampleState " ").currentWorkingDir ≠ "~" := by decide

/-- Claim C3 (amended): for every string `fullPath`, `updateLocation` sets
the tracked full directory to `fullPath.trim()` (which is empty when the
input is blank, with no `"~"` fallback), sets the displayed directory to the
DirectoryNormalizer result, and re-renders the prompt as
`{username}@{hostname}:{displayDir}{symbol} ` with symbol `#` if root else
`$`. -/
theorem updateLocation_behavior (st : State) (fullPath : String) :
    (updateCurrentDirFromPath st fullPath).currentWorkingDir = jsTrim fullPath
    ∧ (updateCurrentDirFromPath st fullPath).promptInfo.currentDir
        = normalizeDir fullPath st.promptInfo.username st.promptInfo.isRoot
    ∧ (updateCurrentDirFromPath st fullPath).currentPrompt
        = st.promptInfo.username ++ "@" ++ st.promptInfo.hostname ++ ":"
          ++ normalizeDir fullPath st.promptInfo.username st.promptInfo.isRoot
          ++ (if st.promptInfo.isRoot then "#" else "$") ++ " " :=
  ⟨rfl, rfl, rfl⟩

/-- Claim C4, counterexample: the claim states that for every path `p`,
`normalize(p, u, true) == p`, but the function trims its input first, so the
untrimmed root path `" /root"` is not returned unchanged. -/
theorem normalize_root_counterexample : normalizeDir " /root" "u" true ≠ " /root" := by
  decide

/-- Claim C4 (amended): `normalize` is a pure total function such that for
every trimmed non-empty path `p` and username `u`, `normalize(p, u, true) = p`
(root paths, including `/root`, are never shortened); for non-root,
`/home/u` maps to `~`, a trimmed path starting with `/home/u/` maps to `~`
plus the remainder after the `/home/u` prefix, and any other trimmed
non-empty path passes through unchanged; empty or blank input maps to `~`. -/
theorem normalize_behavior (p u : String) :
    (jsTrim p = p → p ≠ "" → normalizeDir p u true = p)
    ∧ (jsTrim ("/home/" ++ u) = "/home/" ++ u → normalizeDir ("/home/" ++ u) u false = "~")
    ∧ (jsTrim p = p → jsStartsWith p ("/home/" ++ u ++ "/") = true →
        normalizeDir p u false = "~" ++ jsDropChars p ("/home/" ++ u).length)
    ∧ (jsTrim p = p → p ≠ "" → p ≠ "/home/" ++ u →
        jsStartsWith p ("/home/" ++ u ++ "/") = false → normalizeDir p u false = p)
    ∧ (jsTrim p = "" → normalizeDir p u true = "~" ∧ normalizeDir p u false = "~") := by
  refine ⟨?_, ?_, ?_, ?_, ?_⟩
  · intro h1 h2
    simp [normalizeDir, h1, h2]
  · intro h
    have hne : ("/home/" ++ u : String) ≠ "" := by
      intro he
      have hl := congrArg List.length (congrArg String.data he)
      have h0 : (("" : String).data).length = 0 := rfl
      rw [data_len_home, h0] at hl
      omega
    simp [normalizeDir, h, hne]
  · intro h1 h2
    have hpre : ("/home/" ++ u ++ "/").data <+: p.data := List.isPrefixOf_iff_prefix.mp h2
    have hlen := hpre.length_le
    rw [data_len_homeSlash] at hlen
    have hne : p ≠ "" := by
      intro he
      rw [he] at hlen
      have h0 : (("" : String).data).length = 0 := rfl
      rw [h0] at hlen
      omega
    have hneq : p ≠ "/home/" ++ u := by
      intro he
      rw [he, data_len_home] at hlen
      omega
    simp [normalizeDir, h1, hne, hneq, h2]
  · intro h1 h2 h3 h4
    simp [normalizeDir, h1, h2, h3, h4]
  · intro h
    have hA : ("~" : String) ≠ "/home/" ++ u := by
      intro he
      have hl := congrArg List.length (congrArg String.data he)
      have h1 : (("~" : String).data).length = 1 := rfl
      rw [data_len_home, h1] at hl
      omega
    have hB : jsStartsWith "~" ("/home/" ++ u ++ "/") = false := by
      by_contra hc
      simp only [Bool.not_eq_false] at hc
      have hpre := List.isPrefixOf_iff_prefix.mp hc
      have hlen := hpre.length_le
      have h1 : (("~" : String).data).length = 1 := rfl
      rw [data_len_homeSlash, h1] at hlen
      omega
    constructor
    · simp [normalizeDir, h]
    · simp [normalizeDir, h, hA, hB]

/-- Claim C4, witness: the amended normaliser properties evaluated at
concrete root, home, nested, unrelated and blank inputs. -/
theorem normalize_behavior_witness :
    normalizeDir "/root" "alice" true = "/root"
    ∧ normalizeDir ("/home/" ++ "alice") "alice" false = "~"
    ∧ normalizeDir "/home/alice/proj" "alice" false = "~/proj"
    ∧ normalizeDir "/etc/nginx" "alice" false = "/etc/nginx"
    ∧ normalizeDir "   " "alice" false = "~" := by
  refine ⟨(normalize_behavior "/root" "alice").1 (by decide) (by decide),
          (normalize_behavior "" "alice").2.1 (by decide), ?_,
          (normalize_behavior "/etc/nginx" "alice").2.2.2.1
            (by decide) (by decide) (by decide) (by decide),
          ((normalize_behavior "   " "alice").2.2.2.2 (by decide)).2⟩
  have h := (normalize_behavior "/home/alice/proj" "alice").2.2.1 (by decide) (by decide)
  rw [h]
  decide

/-- Claim C1: for every normal execution result (no interactive signal and
no `newDir`), each element of `result.outputLines` is appended to the output
buffer as an `Error` line when `result.exit_code` is non-zero and as an
`Output` line when it is zero. -/
theorem exec_normal_exit_code_lines (st : State) (rec : Bool) (sv : Server)
    (cmd : String) (r : ExecResult)
    (h1 : (r.isInteractive && strTruthy r.interactiveMessage) = false)
    (h2 : strTruthy r.newDir = false) :
    (executeCommand st rec sv cmd (.ok r)).state.outputLines
      = st.outputLines ++ r.outputLines.map
          (fun l => ⟨if r.exit_code = 0 then .output else .error, l, ""⟩) := by
  simp [executeCommand, h1, h2, normalLine]

/-- Claim C1, witness: a result with exit code `2` and two output lines gets
both appended as `Error` lines. -/
theorem exec_normal_exit_code_lines_witness :
    ((resFail.isInteractive && strTruthy resFail.interactiveMessage) = false)
    ∧ (strTruthy resFail.newDir = false)
    ∧ (executeCommand initState false sv0 "x" (.ok resFail)).state.outputLines
        = initState.outputLines ++ resFail.outputLines.map
            (fun l => ⟨if resFail.exit_code = 0 then .output else .error, l, ""⟩) :=
  ⟨by decide, by decide,
   exec_normal_exit_code_lines initState false sv0 "x" resFail (by decide) (by decide)⟩

/-- Claim C2: for every execution result carrying a directory-change signal
(`newDir` truthy, not interactive), the controller updates the tracked full
directory and the displayed directory from `newDir` and appends exactly one
blank `Output` line, displaying none of `result.outputLines`. -/
theorem exec_dir_change_updates (st : State) (rec : Bool) (sv : Server)
    (cmd : String) (r : ExecResult)
    (h1 : (r.isInteractive && strTruthy r.interactiveMessage) = false)
    (h2 : strTruthy r.newDir = true) :
    (executeCommand st rec sv cmd (.ok r)).state.currentWorkingDir
        = jsTrim (r.newDir.getD "")
    ∧ (executeCommand st rec sv cmd (.ok r)).state.promptInfo.currentDir
        = normalizeDir (r.newDir.getD "") st.promptInfo.username st.promptInfo.isRoot
    ∧ (executeCommand st rec sv cmd (.ok r)).state.outputLines
        = st.outputLines ++ [⟨.output, "", ""⟩] := by
  refine ⟨?_, ?_, ?_⟩ <;> simp [executeCommand, h1, h2, updateCurrentDirFromPath]

/-- Claim C2, witness: a `cd` result with `newDir` set changes the tracked
and displayed directories and appends one blank line. -/
theorem exec_dir_change_updates_witness :
    ((resCd.isInteractive && strTruthy resCd.interactiveMessage) = false)
    ∧ (strTruthy resCd.newDir = true)
    ∧ ((executeCommand initState false sv0 "cd /tmp" (.ok resCd)).state.currentWorkingDir
          = jsTrim (resCd.newDir.getD "")
        ∧ (executeCommand initState false sv0 "cd /tmp" (.ok resCd)).state.promptInfo.currentDir
            = normalizeDir (resCd.newDir.getD "") initState.promptInfo.username
                initState.promptInfo.isRoot
        ∧ (executeCommand initState false sv0 "cd /tmp" (.ok resCd)).state.outputLines
            = initState.outputLines ++ [⟨.output, "", ""⟩]) :=
  ⟨by decide, by decide,
   exec_dir_change_updates initState false sv0 "cd /tmp" resCd (by decide) (by decide)⟩

/-- Claim C8: for every execution result carrying an interactive-command
signal (`isInteractive` and a truthy `interactiveMessage`), the tracked full
directory and the displayed directory are left unchanged, each line of
`outputLines` is appended as `Error` when it starts with the warning marker
and as `Output` otherwise, and no output recording event is emitted. -/
theorem exec_interactive_frame (st : State) (rec : Bool) (sv : Server)
    (cmd : String) (r : ExecResult)
    (h1 : r.isInteractive = true)
    (h2 : strTruthy r.interactiveMessage = true) :
    (executeCommand st rec sv cmd (.ok r)).state.currentWorkingDir = st.currentWorkingDir
    ∧ (executeCommand st rec sv cmd (.ok r)).state.promptInfo.currentDir
        = st.promptInfo.currentDir
    ∧ (executeCommand st rec sv cmd (.ok r)).state.outputLines
        = st.outputLines ++ r.outputLines.map
            (fun l => ⟨if jsStartsWith l warnMarker then .error else .output, l, ""⟩)
    ∧ (executeCommand st rec sv cmd (.ok r)).events = [] := by
  refine ⟨?_, ?_, ?_, ?_⟩ <;> simp [executeCommand, h1, h2, interactiveLine]

/-- Claim C8, witness: an interactive result with a warning line and a plain
line leaves the directories untouched, splits the lines by the marker and
emits no recording event (recording enabled to exercise the suppression). -/
theorem exec_interactive_frame_witness :
    (resInter.isInteractive = true)
    ∧ (strTruthy resInter.interactiveMessage = true)
    ∧ ((executeCommand initState true sv0 "top" (.ok resInter)).state.currentWorkingDir
          = initState.currentWorkingDir
        ∧ (executeCommand initState true sv0 "top" (.ok resInter)).state.promptInfo.currentDir
            = initState.promptInfo.currentDir
        ∧ (executeCommand initState true sv0 "top" (.ok resInter)).state.outputLines
            = initState.outputLines ++ resInter.outputLines.map
                (fun l => ⟨if jsStartsWith l warnMarker then .error else .output, l, ""⟩)
        ∧ (executeCommand initState true sv0 "top" (.ok resInter)).events = []) :=
  ⟨by decide, by decide,
   exec_interactive_frame initState true sv0 "top" resInter (by decide) (by decide)⟩

/-- Claim C5: for every execution-service failure thrown during dispatch,
the controller resolves a message by the fallback chain (native error object
message when non-empty else the generic message, the error itself when a
string, the generic message when nothing usable), splits it on newline and
appends one `Error` line per segment, prefixing non-empty segments with the
session display name (`name`, else `host:port`) and a colon-space, and
rendering empty segments as blank unprefixed lines; in particular an error
with message `timeout` on a session named `prod-1` yields exactly one
`Error` line with content `prod-1: timeout`. -/
theorem exec_failure_error_lines (st : State) (rec : Bool) (sv : Server)
    (cmd : String) (e : ErrVal) (m s : String) :
    (executeCommand st rec sv cmd (.error e)).state.outputLines
      = st.outputLines ++ (jsSplitNewline (resolveErrMsg e)).map
          (fun l => ⟨.error, if l = "" then "" else serverDisplayName sv ++ ": " ++ l, ""⟩)
    ∧ resolveErrMsg (.errObj m) = (if m = "" then genericExecFailMsg else m)
    ∧ resolveErrMsg (.strVal s) = s
    ∧ resolveErrMsg (.other none) = genericExecFailMsg
    ∧ (executeCommand st rec ⟨"i", "prod-1", "h", 22, "u"⟩ cmd
          (.error (.errObj "timeout"))).state.outputLines
        = st.outputLines ++ [⟨.error, "prod-1: timeout", ""⟩] := by
  refine ⟨rfl, rfl, rfl, rfl, ?_⟩
  show st.outputLines ++ (jsSplitNewline (resolveErrMsg (.errObj "timeout"))).map
      (errorLine ⟨"i", "prod-1", "h", 22, "u"⟩)
    = st.outputLines ++ [⟨.error, "prod-1: timeout", ""⟩]
  exact congrArg (st.outputLines ++ ·) (by decide)

/-- Claim C6: for every completion result, a truthy `completedInput`
replaces the edit buffer and prints no match list, even when the match list
is non-empty; otherwise a true `shouldShowMatches` with a non-empty match
list appends exactly one `Output` line joining the matches with two spaces;
otherwise nothing visible happens; and a completion request with empty
trimmed input performs no call and no change. -/
theorem tabComplete_precedence (st : State)
    (svc : String → String → Except ErrVal CompletionResult) (r : CompletionResult)
    (hr : svc (jsTrim st.currentInput) (dispatchDir st) = .ok r) :
    (jsTrim st.currentInput ≠ "" → strTruthy r.completedInput = true →
      handleTabComplete st svc
        = ({ st with currentInput := r.completedInput.getD "" },
           [(jsTrim st.currentInput, dispatchDir st)]))
    ∧ (jsTrim st.currentInput ≠ "" → strTruthy r.completedInput = false →
        r.shouldShowMatches = true → r.matchList ≠ [] →
      handleTabComplete st svc
        = ({ st with outputLines :=
              st.outputLines ++ [⟨.output, String.intercalate "  " r.matchList, ""⟩] },
           [(jsTrim st.currentInput, dispatchDir st)]))
    ∧ (jsTrim st.currentInput ≠ "" → strTruthy r.completedInput = false →
        (r.shouldShowMatches = false ∨ r.matchList = []) →
      handleTabComplete st svc = (st, [(jsTrim st.currentInput, dispatchDir st)]))
    ∧ (jsTrim st.currentInput = "" → handleTabComplete st svc = (st, [])) := by
  refine ⟨?_, ?_, ?_, ?_⟩
  · intro h1 h2
    simp [handleTabComplete, h1, hr, h2]
  · intro h1 h2 h3 h4
    simp [handleTabComplete, h1, hr, h2, h3, h4]
  · intro h1 h2 h3
    rcases h3 with h3 | h3 <;> simp [handleTabComplete, h1, hr, h2, h3]
  · intro h1
    simp [handleTabComplete, h1]

/-- Claim C6, witness: given both a completed input and a non-empty match
list, the edit buffer is replaced and no match list is printed. -/
theorem tabComplete_precedence_witness :
    (jsTrim tabState.currentInput ≠ "")
    ∧ (strTruthy (CompletionResult.mk (some "lsof") ["ls", "lsof"] true).completedInput = true)
    ∧ handleTabComplete tabState complSvcW
        = ({ tabState with
              currentInput := (CompletionResult.mk (some "lsof") ["ls", "lsof"] true).completedInput.getD "" },
           [(jsTrim tabState.currentInput, dispatchDir tabState)]) :=
  ⟨by decide, by decide,
   (tabComplete_precedence tabState complSvcW ⟨some "lsof", ["ls", "lsof"], true⟩ rfl).1
     (by decide) (by decide)⟩

/-- Claim C9, counterexample: the claim states that each identity probe
falls back to its context default individually, so a successful `whoami`
returning `alice` should survive a later probe failure; but a single catch
block resets every value, so the username becomes the context default `bob`
instead of the probed `alice`. -/
theorem fetch_fallback_counterexample :
    (fetchPromptInfo initState svBob (.ok "alice") (.error (.errObj "boom"))
        (.error (.errObj "boom")) (.error (.errObj "boom"))).promptInfo.username = "bob"
    ∧ (fetchPromptInfo initState svBob (.ok "alice") (.error (.errObj "boom"))
        (.error (.errObj "boom")) (.error (.errObj "boom"))).promptInfo.username ≠ "alice" :=
  ⟨by decide, by decide⟩

/-- Claim C9 (amended): `refreshIdentity` never propagates a probe failure;
when any of the four sequential probes fails, the whole identity is reset to
context defaults (`context.username` or `user`, `context.host` or
`localhost`, root status `false`, displayed directory `~`), discarding the
results of earlier successful probes, the prompt is re-rendered from those
defaults, and the tracked working directory is left untouched. -/
theorem fetch_failure_recovery (st : State) (sv : Server) :
    (∀ e p2 p3 p4, fetchPromptInfo st sv (.error e) p2 p3 p4
        = { st with promptInfo := promptDefaults sv
                    currentPrompt := renderPrompt (promptDefaults sv) })
    ∧ (∀ o1 e p3 p4, fetchPromptInfo st sv (.ok o1) (.error e) p3 p4
        = { st with promptInfo := promptDefaults sv
                    currentPrompt := renderPrompt (promptDefaults sv) })
    ∧ (∀ o1 o2 e p4, fetchPromptInfo st sv (.ok o1) (.ok o2) (.error e) p4
        = { st with promptInfo := promptDefaults sv
                    currentPrompt := renderPrompt (promptDefaults sv) })
    ∧ (∀ o1 o2 o3 e, fetchPromptInfo st sv (.ok o1) (.ok o2) (.ok o3) (.error e)
        = { st with promptInfo := promptDefaults sv
                    currentPrompt := renderPrompt (promptDefaults sv) })
    ∧ (∀ e p2 p3 p4,
        (fetchPromptInfo st sv (.error e) p2 p3 p4).currentWorkingDir
          = st.currentWorkingDir) := by
  refine ⟨?_, ?_, ?_, ?_, ?_⟩
  · intro e p2 p3 p4
    cases p2 <;> cases p3 <;> cases p4 <;> rfl
  · intro o1 e p3 p4
    cases p3 <;> cases p4 <;> rfl
  · intro o1 o2 e p4
    cases p4 <;> rfl
  · intro o1 o2 o3 e
    rfl
  · intro e p2 p3 p4
    cases p2 <;> cases p3 <;> cases p4 <;> rfl

/-- Claim C10, counterexample: the claim states that the first command
dispatched after a reconnect carries the pre-disconnect directory; but when
the reconnect prompt-info bootstrap succeeds, its `pwd` probe overwrites the
tracked directory, so the command after reconnecting a session whose
pre-disconnect directory was `/tmp/x` is dispatched with the freshly probed
`/home/alice` instead. -/
theorem disconnect_dir_counterexample :
    (handleCommand stRe false sv0 (.ok res0)).calls
      = [⟨"srv-1", "ls", "/home/alice"⟩]
    ∧ ("/home/alice" : String) ≠ "/tmp/x" :=
  ⟨by decide, by decide⟩

/-- Claim C10 (amended): disconnecting resets the rendered prompt to the
idle `$ ` and the prompt identity fields to their defaults while leaving the
tracked full working directory unchanged; a command dispatched before the
reconnect prompt-info refresh completes, or after it fails, is sent with the
pre-disconnect directory as its `currentDir`, whereas a successful refresh
overwrites the tracked directory with the freshly probed `pwd` output. -/
theorem disconnect_behavior (st : State) (sv : Server) :
    (onDisconnect st).currentPrompt = "$ "
    ∧ (onDisconnect st).promptInfo = initPromptInfo
    ∧ (onDisconnect st).currentWorkingDir = st.currentWorkingDir
    ∧ (∀ e p2 p3 p4,
        (onConnect (onDisconnect st) sv (.error e) p2 p3 p4).currentWorkingDir
          = st.currentWorkingDir)
    ∧ (∀ o1 o2 o3 o4,
        (onConnect (onDisconnect st) sv (.ok o1) (.ok o2) (.ok o3) (.ok o4)).currentWorkingDir
          = if jsTrim o4 = "" then "~" else jsTrim o4)
    ∧ (∀ rec out, (handleCommand st rec sv out).calls
        = if jsTrim st.currentInput = "" then []
          else [⟨sv.id, jsTrim st.currentInput, dispatchDir st⟩]) := by
  refine ⟨rfl, rfl, rfl, ?_, ?_, ?_⟩
  · intro e p2 p3 p4
    cases p2 <;> cases p3 <;> cases p4 <;> rfl
  · intro o1 o2 o3 o4
    show jsTrim (if jsTrim o4 = "" then "~" else jsTrim o4)
      = if jsTrim o4 = "" then "~" else jsTrim o4
    rcases eq_or_ne (jsTrim o4) "" with h | h
    · rw [if_pos h]
      decide
    · rw [if_neg h]
      exact jsTrim_idem o4
  · intro rec out
    rcases eq_or_ne (jsTrim st.currentInput) "" with h | h
    · simp [handleCommand, h]
    · rw [if_neg h]
      show (handleCommand st rec sv out).calls = _
      simp only [handleCommand, if_neg h]
      cases out with
      | error e => rfl
      | ok r =>
        simp only [executeCommand]
        split
        · rfl
        · split <;> rfl

/-- Command execution never touches the history fields. -/
theorem executeCommand_hist (st : State) (rec : Bool) (sv : Server) (cmd : String)
    (out : Except ErrVal ExecResult) :
    (executeCommand st rec sv cmd out).state.commandHistory = st.commandHistory
    ∧ (executeCommand st rec sv cmd out).state.historyIndex = st.historyIndex := by
  cases out with
  | error e => exact ⟨rfl, rfl⟩
  | ok r =>
    simp only [executeCommand]
    split
    · exact ⟨rfl, rfl⟩
    · split
      · exact ⟨rfl, rfl⟩
      · exact ⟨rfl, rfl⟩

/-- Tab completion never touches the history fields. -/
theorem handleTabComplete_hist (st : State)
    (svc : String → String → Except ErrVal CompletionResult) :
    (handleTabComplete st svc).1.commandHistory = st.commandHistory
    ∧ (handleTabComplete st svc).1.historyIndex = st.historyIndex := by
  constructor <;>
  · simp only [handleTabComplete]
    split
    · rfl
    · cases svc (jsTrim st.currentInput) (dispatchDir st) with
      | error e => rfl
      | ok r => repeat first | rfl | split

/-- The prompt-info bootstrap never touches the history fields. -/
theorem fetchPromptInfo_hist (st : State) (sv : Server)
    (p1 p2 p3 p4 : Except ErrVal String) :
    (fetchPromptInfo st sv p1 p2 p3 p4).commandHistory = st.commandHistory
    ∧ (fetchPromptInfo st sv p1 p2 p3 p4).historyIndex = st.historyIndex := by
  cases p1 <;> cases p2 <;> cases p3 <;> cases p4 <;> exact ⟨rfl, rfl⟩

/-- The history invariant transfers along equal history fields. -/
theorem histInv_of_eq {a b : State} (h1 : a.commandHistory = b.commandHistory)
    (h2 : a.historyIndex = b.historyIndex) (hb : histInv b) : histInv a := by
  simp only [histInv] at hb ⊢
  rw [h1, h2]
  exact hb

/-- Submitting either leaves the history fields unchanged (blank input) or
appends the trimmed command and sets the cursor to the previous length plus
one. -/
theorem handleCommand_hist (s : State) (rec : Bool) (sv : Server)
    (out : Except ErrVal ExecResult) :
    ((handleCommand s rec sv out).state.commandHistory = s.commandHistory
      ∧ (handleCommand s rec sv out).state.historyIndex = s.historyIndex)
    ∨ ((handleCommand s rec sv out).state.commandHistory
          = s.commandHistory ++ [jsTrim s.currentInput]
        ∧ (handleCommand s rec sv out).state.historyIndex
          = (s.commandHistory.length : Int) + 1
        ∧ jsTrim s.currentInput ≠ "") := by
  by_cases hc : jsTrim s.currentInput = ""
  · left
    constructor <;> simp [handleCommand, hc]
  · right
    refine ⟨?_, ?_, hc⟩
    · simp only [handleCommand, if_neg hc]
      rw [(executeCommand_hist _ rec sv _ out).1]
    · simp only [handleCommand, if_neg hc]
      rw [(executeCommand_hist _ rec sv _ out).2]

/-- Submitting a non-blank command resets the history cursor to the new
history length. -/
theorem handleCommand_submit_reset (s : State) (rec : Bool) (sv : Server)
    (out : Except ErrVal ExecResult) (h : jsTrim s.currentInput ≠ "") :
    (handleCommand s rec sv out).state.historyIndex
      = ((handleCommand s rec sv out).state.commandHistory.length : Int) := by
  simp only [handleCommand, if_neg h]
  rw [(executeCommand_hist _ rec sv _ out).1, (executeCommand_hist _ rec sv _ out).2]
  simp only [List.length_append, List.length_cons, List.length_nil]
  push_cast
  omega

/-- All reachable states satisfy the history invariant. -/
theorem reach_histInv : ∀ s : State, Reach s → histInv s := by
  intro s h
  induction h with
  | init =>
    refine ⟨by decide, by decide, fun _ => rfl, ?_⟩
    intro e he
    simp [initState] at he
  | typeInput a t ih => exact ih
  | @cmd s a rec sv out ih =>
    rcases handleCommand_hist s rec sv out with ⟨h1, h2⟩ | ⟨h1, h2, hne⟩
    · exact histInv_of_eq h1 h2 ih
    · simp only [histInv] at ih ⊢
      rw [h1, h2]
      obtain ⟨ia, ib, ic, idd⟩ := ih
      refine ⟨by omega, ?_, fun hx => absurd hx (by omega), ?_⟩
      · simp only [List.length_append, List.length_cons, List.length_nil]
        push_cast
        omega
      · intro e he
        rcases List.mem_append.mp he with hm | hm
        · exact idd e hm
        · rw [List.mem_singleton.mp hm, jsTrim_idem]
          exact hne
  | @up s a ih =>
    by_cases hlen : s.commandHistory.length = 0
    · simp only [handleHistoryUp, if_pos hlen]
      exact ih
    · by_cases hgt : s.historyIndex > 0
      · simp only [handleHistoryUp, if_neg hlen, if_pos hgt]
        simp only [histInv] at ih ⊢
        obtain ⟨ia, ib, ic, idd⟩ := ih
        exact ⟨by omega, by omega, fun hx => absurd hx (by omega), idd⟩
      · simp only [handleHistoryUp, if_neg hlen, if_neg hgt]
        exact ih
  | @down s a ih =>
    by_cases hlt : s.historyIndex < (s.commandHistory.length : Int) - 1
    · simp only [handleHistoryDown, if_pos hlt]
      simp only [histInv] at ih ⊢
      obtain ⟨ia, ib, ic, idd⟩ := ih
      exact ⟨by omega, by omega, fun hx => absurd hx (by omega), idd⟩
    · simp only [handleHistoryDown, if_neg hlt]
      simp only [histInv] at ih ⊢
      obtain ⟨ia, ib, ic, idd⟩ := ih
      exact ⟨by omega, by omega, fun hx => absurd hx (by omega), idd⟩
  | @tab s a svc ih =>
    exact histInv_of_eq (handleTabComplete_hist s svc).1 (handleTabComplete_hist s svc).2 ih
  | clearStep a ih => exact ih
  | disconnect a ih => exact ih
  | @connect s a sv p1 p2 p3 p4 ih =>
    refine histInv_of_eq ?_ ?_ ih
    · exact (fetchPromptInfo_hist (pushConnectedLine s sv) sv p1 p2 p3 p4).1
    · exact (fetchPromptInfo_hist (pushConnectedLine s sv) sv p1 p2 p3 p4).2

/-- Claim C7, counterexample: the claimed invariant `cursor ∈ [0, length]`
fails at the reachable initial state, whose cursor is `-1`; and after the
reachable blank submission following an up-navigation, the cursor is `0`
while the history length is `1`, so the cursor does not equal the length
immediately after that submission. -/
theorem history_claim_counterexample :
    (Reach initState ∧ initState.historyIndex < 0)
    ∧ (Reach histSampleE
        ∧ histSampleE.historyIndex ≠ (histSampleE.commandHistory.length : Int)) := by
  refine ⟨⟨Reach.init, by decide⟩, ⟨?_, by decide⟩⟩
  exact Reach.cmd (Reach.typeInput (Reach.up (Reach.cmd (Reach.typeInput Reach.init "ls")
    false sv0 (.ok res0))) "") false sv0 (.ok res0)

/-- Claim C7 (amended): at every reachable point the cursor is an integer in
`[-1, entries.length]`, equal to `-1` only while the history is empty (its
initial value); entries never contain an empty or whitespace-only command;
and immediately after every submission of a non-blank command the cursor
equals `entries.length`. -/
theorem history_invariant (s : State) (h : Reach s) :
    histInv s
    ∧ ∀ rec sv out, jsTrim s.currentInput ≠ "" →
        (handleCommand s rec sv out).state.historyIndex
          = ((handleCommand s rec sv out).state.commandHistory.length : Int) :=
  ⟨reach_histInv s h, fun rec sv out hne => handleCommand_submit_reset s rec sv out hne⟩

/-- Claim C7, witness: the invariant holds at the initial state, and the
concrete submission of `ls` from the initial state resets the cursor to the
new history length. -/
theorem history_invariant_witness :
    histInv initState
    ∧ (jsTrim histSampleA.currentInput ≠ ""
        ∧ (handleCommand histSampleA false sv0 (.ok res0)).state.historyIndex
            = ((handleCommand histSampleA false sv0 (.ok res0)).state.commandHistory.length : Int)) :=
  ⟨(history_invariant initState Reach.init).1,
   by decide,
   (history_invariant histSampleA (Reach.typeInput Reach.init "ls")).2 false sv0
     (.ok res0) (by decide)⟩

end MySsh
